import Mathlib

/-!
Shallow embedding of the Project Listing and Ranking Engine of the
HackTJ judging application (source: `src/accounts/views.py`, data model in
`src/core/models.py` and `src/accounts/models.py`).

Modelling conventions:
* Python `Decimal` score values are modelled as `ℚ`.  The stored values have
  two fraction digits and `Decimal` division rounds to 28 significant digits;
  at the magnitudes involved this rounding never crosses any comparison made
  by the engine, so division is modelled exactly.
* A Python `dict`-valued JSON field is modelled as an `Option` of a structure:
  `none` stands for a falsy dict (absent or `{}`), and each field of the
  structure is an `Option` standing for the presence of the key
  (`dict.get` returning `None` and an absent key behave identically in the
  source, so both map to `none`).
* Python truthiness is modelled explicitly by small `py...` helpers.
* `list.sort(key=..., reverse=...)` (CPython Timsort) is a stable sort;
  a stable sort with respect to a total preorder on keys has a unique
  result, so it is modelled by a stable insertion sort.  `reverse=True` is
  implemented in CPython by reversing the list before and after an ascending
  sort, which `pySort` mirrors.
* Django query sets are modelled as lists in database iteration order;
  `order_by("title")` becomes a stable sort by title.
* Fields of the view context that are purely presentational and read by no
  claim (team, members, next appointment, appointments count) are omitted
  from the row record; every field the engine reads is present.
-/

namespace Judging

/-- Core catalog record for a project (`core/models.py`, class `Project`).
Only the fields read by the listing engine are carried as explicit fields;
`otherAttrTruthy` gives the Python truthiness of `getattr(project, name, False)`
for every attribute name outside the modelled set (the Django object also has
team, description, methods, and so on; `getattr` with default `False` returns
`False` only for names that are not attributes at all). -/
structure Project where
  id : Nat
  title : String
  created_at : Nat
  main_category : String
  eligible_categories : Option (List String)
  is_beginner : Bool
  is_mobile : Bool
  is_web : Bool
  uses_ai_ml : Bool
  is_roam : Bool
  otherAttrTruthy : String → Bool

/-- One judge score record (`core/models.py`, class `ScoreRecord`).  The
aggregator guards both axes against `None`, so both are carried as options. -/
structure ScoreRecord where
  raw_score : Option ℚ
  scaled_score : Option ℚ
deriving DecidableEq

/-- Per-project whitelist/blacklist/manual-rank override
(`core/models.py`, class `ProjectListEntry`). -/
structure ProjectListEntry where
  project_id : Nat
  is_whitelisted : Bool
  is_blacklisted : Bool
  manual_rank : Option Nat
deriving DecidableEq

/-- The structured filter dictionary stored in `ProjectList.filter_config`.
Each field models the presence of the corresponding key. -/
structure FilterConfig where
  main_categories : Option (List String)
  categories : Option (List String)
  eligible_categories : Option (List String)
  require_flags : Option (List String)
  exclude_flags : Option (List String)
  whitelist_only : Option Bool

/-- A named list configuration (`core/models.py`, class `ProjectList`). -/
structure ProjectList where
  title : String
  slug : String
  audience : String
  sort_field : String
  sort_descending : Bool
  limit : Option Nat
  filter_config : Option FilterConfig
  is_default : Bool

/-- Truthiness of an optional list value, as Python sees it:
`None` and `[]` are falsy. -/
def pyTruthyList : Option (List String) → Bool
  | none => false
  | some l => !l.isEmpty

/-- Python `a or b` on two optional list values (`views.py` line 136). -/
def pyOrList (a b : Option (List String)) : Option (List String) :=
  if pyTruthyList a then a else b

/-- Python `value or []` on an optional list value. -/
def pyOrEmpty (a : Option (List String)) : List String :=
  a.getD []

/-- Truthiness of the optional `limit` field: `None` and `0` are falsy. -/
def pyTruthyNat : Option Nat → Bool
  | none => false
  | some n => n != 0

/-- Python `value or Decimal("-1")` on an optional score average:
both `None` and a zero average fall back to `-1` (`views.py` 528, 531). -/
def pyOrDec (a : Option ℚ) (d : ℚ) : ℚ :=
  match a with
  | none => d
  | some q => if q = 0 then d else q

/-- The fixed flag alias table `PROJECT_FLAG_FIELD_MAP`
(`views.py` lines 118-129). -/
def PROJECT_FLAG_FIELD_MAP : List (String × String) :=
  [("beginner", "is_beginner"), ("is_beginner", "is_beginner"),
   ("mobile", "is_mobile"), ("is_mobile", "is_mobile"),
   ("web", "is_web"), ("is_web", "is_web"),
   ("ai_ml", "uses_ai_ml"), ("uses_ai_ml", "uses_ai_ml"),
   ("roam", "is_roam"), ("is_roam", "is_roam")]

/-- `PROJECT_FLAG_FIELD_MAP.get(flag, flag)` (`views.py` 148, 154). -/
def flag_field (flag : String) : String :=
  ((PROJECT_FLAG_FIELD_MAP.find? (fun kv => kv.1 == flag)).map (fun kv => kv.2)).getD flag

/-- Truthiness of `getattr(project, field, False)` for a project.  Names of
the modelled fields use the truthiness of that field value; every other name
is delegated to `otherAttrTruthy` (which is `false` for names that are not
attributes of the Django object, matching the `False` default). -/
def Project.attrTruthy (p : Project) (field : String) : Bool :=
  if field == "is_beginner" then p.is_beginner
  else if field == "is_mobile" then p.is_mobile
  else if field == "is_web" then p.is_web
  else if field == "uses_ai_ml" then p.uses_ai_ml
  else if field == "is_roam" then p.is_roam
  else if field == "id" then p.id != 0
  else if field == "title" then p.title != ""
  else if field == "created_at" then true
  else if field == "main_category" then p.main_category != ""
  else if field == "eligible_categories" then
    match p.eligible_categories with
    | some l => !l.isEmpty
    | none => false
  else p.otherAttrTruthy field

/-- The filter evaluator `_project_matches_filter` (`views.py` 132-158).
The argument is `none` for a falsy dict, in which case everything matches. -/
def project_matches_filter (project : Project) (filter_config : Option FilterConfig) : Bool :=
  match filter_config with
  | none => true
  | some cfg =>
    let main_categories := pyOrList cfg.main_categories cfg.categories
    if pyTruthyList main_categories && !(pyOrEmpty main_categories).contains project.main_category then
      false
    else
      let eligible_required := pyOrEmpty cfg.eligible_categories
      if !eligible_required.isEmpty &&
          !eligible_required.any (fun code => (pyOrEmpty project.eligible_categories).contains code) then
        false
      else
        let require_flags := pyOrEmpty cfg.require_flags
        if require_flags.any (fun flag => !project.attrTruthy (flag_field flag)) then
          false
        else
          let exclude_flags := pyOrEmpty cfg.exclude_flags
          if exclude_flags.any (fun flag => project.attrTruthy (flag_field flag)) then
            false
          else
            true

/-- Aggregated score statistics, the dict built by
`_score_summary_from_records` (`views.py` 188-196). -/
structure ScoreSummary where
  count : Nat
  avg_raw : Option ℚ
  avg_scaled : Option ℚ
  max_raw : Option ℚ
  max_scaled : Option ℚ
  min_raw : Option ℚ
  min_scaled : Option ℚ
deriving DecidableEq

/-- Python `max` over a list, `none` exactly on the empty list (the source
only applies it to nonempty lists, guarded by `if raw_values`). -/
def listMax : List ℚ → Option ℚ
  | [] => none
  | a :: l => some ((listMax l).elim a (fun m => max a m))

/-- Python `min` over a list, `none` exactly on the empty list. -/
def listMin : List ℚ → Option ℚ
  | [] => none
  | a :: l => some ((listMin l).elim a (fun m => min a m))

/-- The score aggregator `_score_summary_from_records` (`views.py` 177-196).
Per axis, the statistics range over that axis entries that are not `None`. -/
def score_summary_from_records (records : List ScoreRecord) : Option ScoreSummary :=
  if records.isEmpty then
    none
  else
    let raw_values := records.filterMap (fun r => r.raw_score)
    let scaled_values := records.filterMap (fun r => r.scaled_score)
    some
      { count := records.length
        avg_raw :=
          if !raw_values.isEmpty then some (raw_values.sum / raw_values.length) else none
        avg_scaled :=
          if !scaled_values.isEmpty then some (scaled_values.sum / scaled_values.length) else none
        max_raw := listMax raw_values
        max_scaled := listMax scaled_values
        min_raw := listMin raw_values
        min_scaled := listMin scaled_values }

/-- Python `str.title()` restricted to ASCII letters: the first letter of
every alphabetic run is uppercased, the rest lowercased.  The filter labels
the engine builds only contain ASCII. -/
def pyTitleAux : Bool → List Char → List Char
  | _, [] => []
  | prevAlpha, c :: cs =>
    if c.isAlpha then
      (if prevAlpha then c.toLower else c.toUpper) :: pyTitleAux true cs
    else
      c :: pyTitleAux false cs

/-- Python `s.title()`. -/
def pyTitle (s : String) : String :=
  ⟨pyTitleAux false s.data⟩

/-- `Project.Category.choices` (`core/models.py` 42-49). -/
def category_choices : List (String × String) :=
  [("biomedical", "Biomedical Science"), ("sustainability", "Sustainability"),
   ("finance", "Finance"), ("lifestyle", "Lifestyle"),
   ("cyber", "Cyber Technology"), ("quantum", "Quantum"), ("other", "Other")]

/-- `dict(choices).get(code, fallback)` over an association list. -/
def choicesGet (choices : List (String × String)) (code : String) (fallback : String) : String :=
  ((choices.find? (fun kv => kv.1 == code)).map (fun kv => kv.2)).getD fallback

/-- The human readable active-filter descriptions `_describe_filters`
(`views.py` 199-229). -/
def describe_filters (filter_config : Option FilterConfig) : List String :=
  match filter_config with
  | none => []
  | some cfg =>
    let categories := pyOrList cfg.main_categories cfg.categories
    (if pyTruthyList categories then
      let labels := (pyOrEmpty categories).map
        (fun code => choicesGet category_choices code (pyTitle (code.replace "_" " ")))
      ["Main categories: " ++ String.intercalate ", " labels]
    else []) ++
    (let eligible := pyOrEmpty cfg.eligible_categories
     if !eligible.isEmpty then
      ["Eligible for: " ++ String.intercalate ", " (eligible.map (fun code => pyTitle (code.replace "_" " ")))]
     else []) ++
    (let require_flags := pyOrEmpty cfg.require_flags
     if !require_flags.isEmpty then
      ["Must have: " ++ String.intercalate ", " (require_flags.map (fun flag => pyTitle (flag.replace "_" " ")))]
     else []) ++
    (let exclude_flags := pyOrEmpty cfg.exclude_flags
     if !exclude_flags.isEmpty then
      ["Exclude: " ++ String.intercalate ", " (exclude_flags.map (fun flag => pyTitle (flag.replace "_" " ")))]
     else []) ++
    (if cfg.whitelist_only.getD false then ["Whitelist entries only"] else [])

/-- One display row of the listing (the dict built in `views.py` 508-519).
Purely presentational fields that no claim reads (team, members, next
appointment, appointments count) are omitted; every field the engine itself
reads again is present. -/
structure Row where
  project : Project
  entry : Option ProjectListEntry
  score_summary : Option ScoreSummary
  attributes : List String

/-- A row after final rank assignment (`views.py` 545-546). -/
structure RankedRow where
  row : Row
  rank : Nat

/-- Sort keys produced by `sort_key` (`views.py` 521-532): a string for the
alphabetical sorts, a timestamp for the created sort, a decimal for the score
sorts.  Within one run of the engine all keys use one constructor. -/
inductive SKey where
  | str (s : String)
  | time (n : Nat)
  | rat (q : ℚ)

/-- Constructor index, used only to make the key order total across
constructors (mixed constructors never occur within one sort). -/
def SKey.idx : SKey → Nat
  | .str _ => 0
  | .time _ => 1
  | .rat _ => 2

/-- The total preorder on sort keys that the Python comparisons induce. -/
def SKey.le : SKey → SKey → Bool
  | .str a, .str b => a ≤ b
  | .time a, .time b => a ≤ b
  | .rat a, .rat b => a ≤ b
  | a, b => a.idx ≤ b.idx

/-- Stable insertion of an element into a list: the element is placed before
the first entry it compares less-or-equal to. -/
def orderedInsert (le : α → α → Bool) (a : α) : List α → List α
  | [] => [a]
  | b :: l => if le a b then a :: b :: l else b :: orderedInsert le a l

/-- Stable sort by a total preorder.  CPython `list.sort` (Timsort) is also
stable, and any two stable sorts with respect to one total preorder agree,
so this models `list.sort(key=...)` exactly. -/
def insertionSort (le : α → α → Bool) : List α → List α
  | [] => []
  | a :: l => orderedInsert le a (insertionSort le l)

/-- `list.sort(key=..., reverse=rev)`: CPython implements `reverse=True` by
reversing the list before and after an ascending stable sort. -/
def pySort (le : α → α → Bool) (rev : Bool) (l : List α) : List α :=
  if rev then (insertionSort le l.reverse).reverse else insertionSort le l

/-- Truthiness of `entry and entry.is_blacklisted`. -/
def entryBlacklisted : Option ProjectListEntry → Bool
  | some e => e.is_blacklisted
  | none => false

/-- Truthiness of `entry and entry.is_whitelisted`. -/
def entryWhitelisted : Option ProjectListEntry → Bool
  | some e => e.is_whitelisted
  | none => false

/-- Truthiness of `row["entry"] and row["entry"].manual_rank is not None`. -/
def entryHasManualRank : Option ProjectListEntry → Bool
  | some e => e.manual_rank.isSome
  | none => false

/-- The inclusion decision of the per-project loop (`views.py` 473-487):
blacklist first, then, when a list is selected, the structural match with the
whitelist-only and whitelist overrides. -/
def include_project (has_selected : Bool) (filter_config : Option FilterConfig)
    (whitelist_only : Bool) (entry : Option ProjectListEntry) (project : Project) : Bool :=
  if entryBlacklisted entry then
    false
  else if has_selected then
    let m := project_matches_filter project filter_config
    if whitelist_only then entryWhitelisted entry
    else if entryWhitelisted entry then true
    else m
  else
    true

/-- The attribute label list (`views.py` 496-506). -/
def attributes_of (project : Project) : List String :=
  (if project.is_beginner then ["Beginner"] else []) ++
  (if project.is_mobile then ["Mobile"] else []) ++
  (if project.is_web then ["Web"] else []) ++
  (if project.uses_ai_ml then ["AI/ML"] else []) ++
  (if project.is_roam then ["Roam"] else [])

/-- The per-project row construction (`views.py` 489-519); `score_records`
maps a project id to its score records in database order. -/
def build_row (score_records : Nat → List ScoreRecord)
    (entry : Option ProjectListEntry) (project : Project) : Row :=
  let records := score_records project.id
  { project := project
    entry := entry
    score_summary := if !records.isEmpty then score_summary_from_records records else none
    attributes := attributes_of project }

/-- The dict comprehension `{entry.project_id: entry for entry in entry_qs}`
(`views.py` 452): on a duplicate project id the last entry wins. -/
def entriesMapLookup (entries : List ProjectListEntry) (pid : Nat) : Option ProjectListEntry :=
  (entries.filter (fun e => e.project_id == pid)).getLast?

/-- The entry records fetched for the selected list (`views.py` 449-452):
the empty map when no list is selected.  `entriesOf` maps a list slug
(unique per configuration) to its entry records. -/
def entries_for (selected_list : Option ProjectList)
    (entriesOf : String → List ProjectListEntry) : List ProjectListEntry :=
  match selected_list with
  | some l => entriesOf l.slug
  | none => []

/-- The effective sort field after the score-visibility guard
(`views.py` 455, 459-460). -/
def effective_sort_field (show_scores : Bool) (selected_list : Option ProjectList) : String :=
  let sf := match selected_list with
    | some l => l.sort_field
    | none => "alphabetical"
  if !show_scores && (sf == "score_raw" || sf == "score_scaled") then "alphabetical" else sf

/-- The sort key function `sort_key` (`views.py` 521-532).  The chained
`summary or \x7b\x7d` followed by `.get(...)` is `Option.bind`; the final
`or Decimal("-1")` is `pyOrDec`. -/
def sort_key (sort_field : String) (item : Row) : SKey :=
  if sort_field == "alphabetical" then .str item.project.title.toLower
  else if sort_field == "created" then .time item.project.created_at
  else if sort_field == "score_raw" then
    .rat (pyOrDec (item.score_summary.bind (fun s => s.avg_raw)) (-1))
  else if sort_field == "score_scaled" then
    .rat (pyOrDec (item.score_summary.bind (fun s => s.avg_scaled)) (-1))
  else .str item.project.title.toLower

/-- Sort key of the manual partition, `row["entry"].manual_rank`
(`views.py` 537); the partition predicate guarantees the rank is present. -/
def manualRankKey (row : Row) : Nat :=
  (row.entry.bind (fun e => e.manual_rank)).getD 0

/-- Truthiness of `filter_config.get("whitelist_only")` (`views.py` 471). -/
def whitelistOnlyOf (filter_config : Option FilterConfig) : Bool :=
  (filter_config.bind (fun cfg => cfg.whitelist_only)).getD false

/-- The stored filter config of the selected list after
`(selected_list.filter_config if selected_list else \x7b\x7d) or \x7b\x7d`
(`views.py` 454): a falsy dict stays `none`. -/
def filterConfigOf (selected_list : Option ProjectList) : Option FilterConfig :=
  selected_list.bind (fun l => l.filter_config)

/-- `selected_list.sort_descending if selected_list else False` (`views.py` 456). -/
def sortDescOf (selected_list : Option ProjectList) : Bool :=
  (selected_list.map (fun l => l.sort_descending)).getD false

/-- `selected_list.limit if selected_list else None` (`views.py` 457). -/
def limitOf (selected_list : Option ProjectList) : Option Nat :=
  selected_list.bind (fun l => l.limit)

/-- The included rows in catalog iteration order: the per-project loop of
`views.py` 473-519 (`continue` on an excluded project becomes `filterMap`). -/
def included_rows (selected_list : Option ProjectList) (projects : List Project)
    (entriesOf : String → List ProjectListEntry)
    (score_records : Nat → List ScoreRecord) : List Row :=
  let entries := entries_for selected_list entriesOf
  let filter_config := filterConfigOf selected_list
  let whitelist_only := whitelistOnlyOf filter_config
  projects.filterMap (fun project =>
    let entry := entriesMapLookup entries project.id
    if include_project selected_list.isSome filter_config whitelist_only entry project then
      some (build_row score_records entry project)
    else
      none)

/-- The manual/auto partition and the two sorts, then the concatenation
(`views.py` 534-540).  `row not in manual_rows` coincides with the negated
partition predicate because every row holds a distinct project. -/
def ordered_rows (show_scores : Bool) (selected_list : Option ProjectList)
    (projects : List Project) (entriesOf : String → List ProjectListEntry)
    (score_records : Nat → List ScoreRecord) : List Row :=
  let rows := included_rows selected_list projects entriesOf score_records
  let sf := effective_sort_field show_scores selected_list
  let manual_rows := rows.filter (fun row => entryHasManualRank row.entry)
  let auto_rows := rows.filter (fun row => !entryHasManualRank row.entry)
  let manual_sorted := insertionSort (fun a b => manualRankKey a ≤ manualRankKey b) manual_rows
  let auto_sorted := pySort (fun a b => SKey.le (sort_key sf a) (sort_key sf b))
    (sortDescOf selected_list) auto_rows
  manual_sorted ++ auto_sorted

/-- Rank assignment, `enumerate(ordered_rows, start=1)` (`views.py` 545-546). -/
def assign_ranks : Nat → List Row → List RankedRow
  | _, [] => []
  | i, r :: rs => ⟨r, i⟩ :: assign_ranks (i + 1) rs

/-- The computed part of the view context built from the selected list. -/
structure ListingResult where
  project_rows : List RankedRow
  total_projects : Nat
  display_count : Nat
  limit : Option Nat
  active_filters : List String

/-- The listing computation of `project_list` for an already-selected
configuration (`views.py` 449-559): inclusion, partition, sorts, the truthy
limit truncation, rank assignment, and the context counts. -/
def compute_listing (show_scores : Bool) (selected_list : Option ProjectList)
    (projects : List Project) (entriesOf : String → List ProjectListEntry)
    (score_records : Nat → List ScoreRecord) : ListingResult :=
  let limit := limitOf selected_list
  let ordered := ordered_rows show_scores selected_list projects entriesOf score_records
  let truncated := if pyTruthyNat limit then ordered.take (limit.getD 0) else ordered
  { project_rows := assign_ranks 1 truncated
    total_projects := projects.length
    display_count := truncated.length
    limit := limit
    active_filters := describe_filters (filterConfigOf selected_list) }

/-- `_audience_filters` (`views.py` 44-45). -/
def audience_filters (role : String) : List String :=
  ["all", role]

/-- `role in (User.Role.ADMIN, User.Role.JUDGE)` (`views.py` 427). -/
def show_scores_for (role : String) : Bool :=
  role == "admin" || role == "judge"

/-- The roles allowed to open the master project list (`views.py` 422). -/
def allowed_roles : List String :=
  ["admin", "judge", "hacktj"]

/-- `User.Role.choices` (`accounts/models.py` 5-10). -/
def role_choices : List (String × String) :=
  [("admin", "Admin"), ("hacktj", "HackTJ Team"), ("judge", "Judge"),
   ("team", "Team"), ("volunteer", "Volunteer")]

/-- The configurations visible to the viewer, audience filtered and ordered
by title (`views.py` 429-431). -/
def available_lists_for (role : String) (all_lists : List ProjectList) : List ProjectList :=
  insertionSort (fun a b => a.title ≤ b.title)
    (all_lists.filter (fun l => (audience_filters role).contains l.audience))

/-- Errors the view can signal before producing a context. -/
inductive ViewError where
  | permissionDenied
  | http404

/-- The list selection of `views.py` 433-447: an explicit nonempty slug must
resolve among the visible lists or the view raises `Http404`; otherwise the
default for the role, then any default, then the first visible list. -/
def select_list (available : List ProjectList) (list_slug : String) (role : String) :
    Except ViewError (Option ProjectList) :=
  if list_slug ≠ "" then
    match available.find? (fun l => l.slug == list_slug) with
    | none => .error .http404
    | some l => .ok (some l)
  else
    let default_candidates := available.filter (fun l => l.is_default)
    let selected :=
      if !default_candidates.isEmpty then
        match default_candidates.find? (fun l => l.audience == role) with
        | some l => some l
        | none => default_candidates.head?
      else
        none
    match selected with
    | some l => .ok (some l)
    | none => .ok available.head?

/-- The rendered view context (`views.py` 550-561), sans the fields that are
only template inputs copied from elsewhere. -/
structure ProjectListContext where
  project_rows : List RankedRow
  selected_list : Option ProjectList
  available_lists : List ProjectList
  list_slug : String
  show_scores : Bool
  total_projects : Nat
  display_count : Nat
  limit : Option Nat
  active_filters : List String
  role_display : String

/-- The full `project_list` view (`views.py` 419-563): permission check,
audience filtering, list selection (`Http404` on an unknown explicit slug),
then the listing computation.  `list_slug` is taken after the upstream
`.strip()`. -/
def project_list (role : String) (list_slug : String) (all_lists : List ProjectList)
    (projects : List Project) (entriesOf : String → List ProjectListEntry)
    (score_records : Nat → List ScoreRecord) : Except ViewError ProjectListContext :=
  if !(allowed_roles.contains role) then
    .error .permissionDenied
  else
    let show_scores := show_scores_for role
    let available := available_lists_for role all_lists
    match select_list available list_slug role with
    | .error e => .error e
    | .ok selected =>
      let result := compute_listing show_scores selected projects entriesOf score_records
      .ok
        { project_rows := result.project_rows
          selected_list := selected
          available_lists := available
          list_slug := if list_slug ≠ "" then list_slug else
            ((selected.map (fun l => l.slug)).getD "")
          show_scores := show_scores
          total_projects := result.total_projects
          display_count := result.display_count
          limit := result.limit
          active_filters := result.active_filters
          role_display := choicesGet role_choices role (pyTitle role) }

/-- Concrete record set used to witness the aggregation claim. -/
def witnessRecords : List ScoreRecord :=
  [⟨some 2, some 5⟩]

/-- Average on the axis selected by a score sort field (raw unless the
scaled axis is requested); used to state which rows have score data. -/
def axis_avg (sf : String) (row : Row) : Option ℚ :=
  if sf == "score_scaled" then row.score_summary.bind (fun s => s.avg_scaled)
  else row.score_summary.bind (fun s => s.avg_raw)

/-- A project whose attributes play no role beyond a nonempty title. -/
def titledProject : Project :=
  ⟨1, "Alpha", 0, "other", none, false, false, true, false, false, fun _ => false⟩

/-- Filter requiring the flag name `title`, which is not in the alias table
but does name an attribute of the project object. -/
def titleFlagConfig : FilterConfig :=
  ⟨none, none, none, some ["title"], none, none⟩

/-- Filter requiring a name that is no attribute of the project object. -/
def unknownFlagConfig : FilterConfig :=
  ⟨none, none, none, some ["no_such_flag"], none, none⟩

/-- Filter placing the category constraint under the `categories` key. -/
def aliasConfig : FilterConfig :=
  ⟨none, some ["cyber"], none, none, none, none⟩

/-- A project with no score records under `fallbackScores`. -/
def noRecordProject : Project :=
  ⟨1, "Alpha", 0, "other", none, false, false, true, false, false, fun _ => false⟩

/-- A project holding one negative raw score under `fallbackScores`. -/
def negScoreProject : Project :=
  ⟨2, "Beta", 0, "other", none, false, false, true, false, false, fun _ => false⟩

/-- A project holding one positive raw score under `fallbackScores`. -/
def posScoreProject : Project :=
  ⟨3, "Gamma", 0, "other", none, false, false, true, false, false, fun _ => false⟩

/-- Score records: none for project 1, one raw score of -2 for project 2,
one raw score of 5 for project 3. -/
def fallbackScores : Nat → List ScoreRecord := fun pid =>
  if pid == 2 then [⟨some (-2), none⟩]
  else if pid == 3 then [⟨some 5, none⟩]
  else []

/-- Configuration visible to everyone but carrying a different slug. -/
def otherSlugList : ProjectList :=
  ⟨"Other", "other-slug", "all", "alphabetical", false, none, none, false⟩

/-- Configuration storing the explicit limit value 0. -/
def zeroLimitList : ProjectList :=
  ⟨"Zero", "zero-limit", "all", "alphabetical", false, some 0, none, false⟩

/-- Configuration under which `blacklistEntries` blacklists project 1. -/
def blacklistList : ProjectList :=
  ⟨"Black", "black", "all", "alphabetical", false, none, none, false⟩

/-- Entry records of `blacklistList`: project 1 is blacklisted (and even
whitelisted with a manual rank, which must not rescue it). -/
def blacklistEntries : String → List ProjectListEntry := fun s =>
  if s == "black" then [⟨1, true, true, some 1⟩] else []

/-- Second project used alongside `titledProject` in concrete scenarios. -/
def secondProject : Project :=
  ⟨2, "Beta II", 1, "cyber", none, false, false, true, false, false, fun _ => false⟩

/-- Configuration capping the output at one row. -/
def limitOneList : ProjectList :=
  ⟨"Top", "top-one", "all", "alphabetical", false, some 1, none, false⟩

/-- Replaces the score summary of a row by the one computed from another
score catalog; used to relate two runs that differ only in score records. -/
def with_summary (score_records : Nat → List ScoreRecord) (row : Row) : Row :=
  { row with score_summary :=
      if !(score_records row.project.id).isEmpty then
        score_summary_from_records (score_records row.project.id)
      else none }

/-- Configuration requesting a raw score sort, used to witness C2. -/
def scoreSortList : ProjectList :=
  ⟨"Scores", "scores", "all", "score_raw", false, none, none, false⟩

/-! Helper lemmas about the aggregation primitives. -/

theorem listMax_eq_none {l : List ℚ} : listMax l = none ↔ l = [] := by
  cases l <;> simp [listMax]

theorem listMin_eq_none {l : List ℚ} : listMin l = none ↔ l = [] := by
  cases l <;> simp [listMin]

theorem listMax_cons (a : ℚ) (l : List ℚ) :
    listMax (a :: l) = some ((listMax l).elim a (fun m => max a m)) := rfl

theorem listMin_cons (a : ℚ) (l : List ℚ) :
    listMin (a :: l) = some ((listMin l).elim a (fun m => min a m)) := rfl

theorem listMax_le {l : List ℚ} {m : ℚ} (hm : listMax l = some m) :
    ∀ x ∈ l, x ≤ m := by
  induction l generalizing m with
  | nil => simp [listMax] at hm
  | cons a l ih =>
    intro x hx
    rcases List.mem_cons.mp hx with hxa | hxl
    · subst hxa
      cases hl : listMax l with
      | none =>
        rw [listMax_cons, hl] at hm
        simp at hm
        exact le_of_eq hm
      | some m2 =>
        rw [listMax_cons, hl] at hm
        simp at hm
        exact le_of_le_of_eq (le_max_left x m2) hm
    · cases hl : listMax l with
      | none =>
        rw [listMax_eq_none.mp hl] at hxl
        simp at hxl
      | some m2 =>
        rw [listMax_cons, hl] at hm
        simp at hm
        exact le_of_le_of_eq ((ih hl x hxl).trans (le_max_right a m2)) hm

theorem listMin_le {l : List ℚ} {m : ℚ} (hm : listMin l = some m) :
    ∀ x ∈ l, m ≤ x := by
  induction l generalizing m with
  | nil => simp [listMin] at hm
  | cons a l ih =>
    intro x hx
    rcases List.mem_cons.mp hx with hxa | hxl
    · subst hxa
      cases hl : listMin l with
      | none =>
        rw [listMin_cons, hl] at hm
        simp at hm
        exact le_of_eq hm.symm
      | some m2 =>
        rw [listMin_cons, hl] at hm
        simp at hm
        exact le_of_eq_of_le hm.symm (min_le_left x m2)
    · cases hl : listMin l with
      | none =>
        rw [listMin_eq_none.mp hl] at hxl
        simp at hxl
      | some m2 =>
        rw [listMin_cons, hl] at hm
        simp at hm
        exact le_of_eq_of_le hm.symm ((min_le_right a m2).trans (ih hl x hxl))

theorem listMax_mem {l : List ℚ} {m : ℚ} (hm : listMax l = some m) : m ∈ l := by
  induction l generalizing m with
  | nil => simp [listMax] at hm
  | cons a l ih =>
    cases hl : listMax l with
    | none =>
      rw [listMax_cons, hl] at hm
      simp at hm
      rw [← hm]
      exact List.mem_cons_self a l
    | some m2 =>
      rw [listMax_cons, hl] at hm
      simp at hm
      rcases max_choice a m2 with h | h
      · rw [← hm, h]
        exact List.mem_cons_self a l
      · rw [h] at hm
        rw [← hm]
        exact List.mem_cons_of_mem a (ih hl)

theorem listMin_mem {l : List ℚ} {m : ℚ} (hm : listMin l = some m) : m ∈ l := by
  induction l generalizing m with
  | nil => simp [listMin] at hm
  | cons a l ih =>
    cases hl : listMin l with
    | none =>
      rw [listMin_cons, hl] at hm
      simp at hm
      rw [← hm]
      exact List.mem_cons_self a l
    | some m2 =>
      rw [listMin_cons, hl] at hm
      simp at hm
      rcases min_choice a m2 with h | h
      · rw [h] at hm
        rw [← hm]
        exact List.mem_cons_self a l
      · rw [h] at hm
        rw [← hm]
        exact List.mem_cons_of_mem a (ih hl)

theorem avg_between {l : List ℚ} (hne : l ≠ []) {mn mx : ℚ}
    (hmn : listMin l = some mn) (hmx : listMax l = some mx) :
    mn ≤ l.sum / l.length ∧ l.sum / l.length ≤ mx := by
  have hlen : 0 < (l.length : ℚ) := by
    exact_mod_cast List.length_pos.mpr hne
  constructor
  · rw [le_div_iff₀ hlen]
    calc mn * l.length = l.length • mn := by rw [nsmul_eq_mul, mul_comm]
    _ ≤ l.sum := List.card_nsmul_le_sum l mn (listMin_le hmn)
  · rw [div_le_iff₀ hlen]
    calc l.sum ≤ l.length • mx := List.sum_le_card_nsmul l mx (listMax_le hmx)
    _ = mx * l.length := by rw [nsmul_eq_mul, mul_comm]

/-- C7: `summarize(records)` is `none` exactly when the record set is empty;
for a nonempty set the per-axis statistics range over that axis non-null
values (the average exists exactly when the axis has a value, and minimum and
maximum are drawn from the axis values), and on every axis with at least one
value `min ≤ avg ≤ max`. -/

theorem summary_null_iff_empty_and_bounds (records : List ScoreRecord) :
    (score_summary_from_records records = none ↔ records = []) ∧
    (∀ s, score_summary_from_records records = some s →
      s.count = records.length ∧
      (s.avg_raw.isSome ↔ records.filterMap ScoreRecord.raw_score ≠ []) ∧
      (s.avg_scaled.isSome ↔ records.filterMap ScoreRecord.scaled_score ≠ []) ∧
      (∀ mn, s.min_raw = some mn → mn ∈ records.filterMap ScoreRecord.raw_score) ∧
      (∀ mx, s.max_raw = some mx → mx ∈ records.filterMap ScoreRecord.raw_score) ∧
      (∀ a mn mx, s.avg_raw = some a → s.min_raw = some mn → s.max_raw = some mx →
        mn ≤ a ∧ a ≤ mx) ∧
      (∀ a mn mx, s.avg_scaled = some a → s.min_scaled = some mn → s.max_scaled = some mx →
        mn ≤ a ∧ a ≤ mx)) := by
  constructor
  · unfold score_summary_from_records
    split
    · simp_all [List.isEmpty_iff]
    · simp_all [List.isEmpty_iff]
  · intro s hs
    unfold score_summary_from_records at hs
    split at hs
    · exact absurd hs (by simp)
    · injection hs with hs
      subst hs
      refine ⟨rfl, ?_, ?_, ?_, ?_, ?_, ?_⟩
      · dsimp only
        split <;> simp_all [List.isEmpty_iff]
      · dsimp only
        split <;> simp_all [List.isEmpty_iff]
      · intro mn hmn
        dsimp only at hmn
        exact listMin_mem hmn
      · intro mx hmx
        dsimp only at hmx
        exact listMax_mem hmx
      · intro a mn mx ha hmn hmx
        dsimp only at ha hmn hmx
        split at ha
        · rename_i hral
          injection ha with ha
          subst ha
          have hne2 : records.filterMap ScoreRecord.raw_score ≠ [] := by
            simpa [List.isEmpty_iff] using hral
          exact avg_between hne2 hmn hmx
        · exact absurd ha (by simp)
      · intro a mn mx ha hmn hmx
        dsimp only at ha hmn hmx
        split at ha
        · rename_i hsl
          injection ha with ha
          subst ha
          have hne2 : records.filterMap ScoreRecord.scaled_score ≠ [] := by
            simpa [List.isEmpty_iff] using hsl
          exact avg_between hne2 hmn hmx
        · exact absurd ha (by simp)

/-- Witness for C7: on the single record with raw score 2 and scaled score 5,
both axes have data and the main theorem yields the bounds `2 ≤ 2 ≤ 2`. -/

theorem summary_null_iff_empty_and_bounds_witness :
    (2 : ℚ) ≤ 2 ∧ (2 : ℚ) ≤ 2 :=
  ((summary_null_iff_empty_and_bounds witnessRecords).2
      ⟨1, some 2, some 5, some 2, some 5, some 2, some 5⟩
      (by simp [witnessRecords, score_summary_from_records, listMax, listMin])).2.2.2.2.2.1
    2 2 2 rfl rfl rfl

/-- Counterexample to C4: the flag name `title` is not in the fixed alias
table, yet listing it under `require_flags` does not force `matches` to
`false`: the lookup falls back to `getattr(project, "title", False)`, which is
the (truthy, nonempty) project title, so the project still matches. -/

theorem unrecognized_flag_counterexample :
    PROJECT_FLAG_FIELD_MAP.find? (fun kv => kv.1 == "title") = none ∧
    titledProject.title ≠ "" ∧
    project_matches_filter titledProject (some titleFlagConfig) = true := by
  refine ⟨by decide, by decide, by decide⟩

/-- C4 amended: a flag name outside the alias table is looked up as a project
attribute with default `False`, never raising an error.  Whenever the
resolved attribute is falsy on the project, and in particular whenever the
name is no attribute of the project object at all, the flag behaves as an
always-false attribute: under `require_flags` it forces the match to `false`,
and under `exclude_flags` it imposes no constraint.  A name that coincides
with a truthy project attribute (such as `title`) instead uses that
attribute's truthiness. -/

theorem unrecognized_flag_falsy_attr (p : Project) (cfg : FilterConfig) (flag : String)
    (hfalse : p.attrTruthy (flag_field flag) = false) :
    (flag ∈ pyOrEmpty cfg.require_flags → project_matches_filter p (some cfg) = false) ∧
    project_matches_filter p
        (some ⟨cfg.main_categories, cfg.categories, cfg.eligible_categories,
          cfg.require_flags, some (flag :: pyOrEmpty cfg.exclude_flags),
          cfg.whitelist_only⟩) =
      project_matches_filter p (some cfg) := by
  constructor
  · intro hmem
    unfold project_matches_filter
    dsimp only
    split
    · rfl
    · split
      · rfl
      · have hany : (pyOrEmpty cfg.require_flags).any
            (fun flag => !p.attrTruthy (flag_field flag)) = true :=
          List.any_eq_true.mpr ⟨flag, hmem, by simp [hfalse]⟩
        rw [if_pos hany]
  · unfold project_matches_filter
    dsimp only [pyOrEmpty, Option.getD]
    rw [List.any_cons, hfalse]
    rfl

/-- Witness for the amended C4: a flag name that is no attribute at all,
listed under `require_flags`, makes the project fail the filter. -/

theorem unrecognized_flag_falsy_attr_witness :
    project_matches_filter titledProject (some unknownFlagConfig) = false :=
  (unrecognized_flag_falsy_attr titledProject unknownFlagConfig "no_such_flag"
    (by decide)).1 (by decide)

/-- C9: when `main_categories` is absent or empty, the value under the
undocumented alias key `categories` supplies the main-category constraint,
both for the structural match and for the human readable filter
descriptions: the behavior equals that of a configuration carrying the same
value under `main_categories`. -/

theorem categories_alias (p : Project) (cfg : FilterConfig)
    (h : cfg.main_categories = none ∨ cfg.main_categories = some []) :
    project_matches_filter p (some cfg) =
      project_matches_filter p
        (some ⟨cfg.categories, cfg.categories, cfg.eligible_categories,
          cfg.require_flags, cfg.exclude_flags, cfg.whitelist_only⟩) ∧
    describe_filters (some cfg) =
      describe_filters
        (some ⟨cfg.categories, cfg.categories, cfg.eligible_categories,
          cfg.require_flags, cfg.exclude_flags, cfg.whitelist_only⟩) := by
  have hmain : pyTruthyList cfg.main_categories = false := by
    rcases h with h | h <;> simp [h, pyTruthyList, List.isEmpty]
  have key : pyOrList cfg.main_categories cfg.categories =
      pyOrList cfg.categories cfg.categories := by
    unfold pyOrList
    rw [hmain]
    simp
  constructor
  · unfold project_matches_filter
    dsimp only
    rw [key]
  · unfold describe_filters
    dsimp only
    rw [key]

/-- Witness for C9 on a configuration whose only constraint sits under the
`categories` alias key. -/

theorem categories_alias_witness :
    project_matches_filter titledProject (some aliasConfig) =
      project_matches_filter titledProject
        (some ⟨aliasConfig.categories, aliasConfig.categories, aliasConfig.eligible_categories,
          aliasConfig.require_flags, aliasConfig.exclude_flags, aliasConfig.whitelist_only⟩) ∧
    describe_filters (some aliasConfig) =
      describe_filters
        (some ⟨aliasConfig.categories, aliasConfig.categories, aliasConfig.eligible_categories,
          aliasConfig.require_flags, aliasConfig.exclude_flags, aliasConfig.whitelist_only⟩) :=
  categories_alias titledProject aliasConfig (Or.inl rfl)

/-- Counterexample to C3: under the raw score sort, a project holding a
score record with raw score -2 gets sort key -2, while a project with no
score records gets the fallback key -1, which is not strictly below it (and
hence not the lowest possible key either). -/

theorem score_fallback_counterexample :
    axis_avg "score_raw" (build_row fallbackScores none negScoreProject) = some (-2) ∧
    sort_key "score_raw" (build_row fallbackScores none noRecordProject) = SKey.rat (-1) ∧
    sort_key "score_raw" (build_row fallbackScores none negScoreProject) = SKey.rat (-2) ∧
    ¬((-1 : ℚ) < -2) := by
  refine ⟨?_, ?_, ?_, by norm_num⟩
  · simp [axis_avg, build_row, fallbackScores, negScoreProject, score_summary_from_records]
  · simp [sort_key, build_row, fallbackScores, noRecordProject, pyOrDec]
  · simp [sort_key, build_row, fallbackScores, negScoreProject,
      score_summary_from_records, pyOrDec, listMax, listMin]

/-- C3 amended: under a score sort, every project with no score records
receives the fallback sort key -1; this lies strictly below the key of every
project whose average on that axis is positive, but a zero average also
collapses to -1 and a negative average sorts below -1, so -1 is not a
minimal element in general. -/

theorem score_fallback_minus_one (sf : String)
    (hsf : sf = "score_raw" ∨ sf = "score_scaled")
    (score_records : Nat → List ScoreRecord) (entry : Option ProjectListEntry)
    (p : Project) (hnorec : score_records p.id = [])
    (row2 : Row) (q : ℚ) (hq : axis_avg sf row2 = some q) (hpos : 0 < q) :
    sort_key sf (build_row score_records entry p) = SKey.rat (-1) ∧
    sort_key sf row2 = SKey.rat q ∧ (-1 : ℚ) < q := by
  have hq0 : q ≠ 0 := ne_of_gt hpos
  rcases hsf with hsf | hsf <;> subst hsf
  · refine ⟨?_, ?_, by linarith⟩
    · simp [sort_key, build_row, hnorec, pyOrDec]
    · simp [axis_avg] at hq
      simp [sort_key, hq, pyOrDec, hq0]
  · refine ⟨?_, ?_, by linarith⟩
    · simp [sort_key, build_row, hnorec, pyOrDec]
    · simp [axis_avg] at hq
      simp [sort_key, hq, pyOrDec, hq0]

/-- Witness for the amended C3: with the concrete catalog of
`fallbackScores`, the no-record project keys at -1, strictly below the key 5
of the project averaging 5. -/

theorem score_fallback_minus_one_witness :
    sort_key "score_raw" (build_row fallbackScores none noRecordProject) = SKey.rat (-1) ∧
    sort_key "score_raw" (build_row fallbackScores none posScoreProject) = SKey.rat 5 ∧
    (-1 : ℚ) < 5 :=
  score_fallback_minus_one "score_raw" (Or.inl rfl) fallbackScores none
    noRecordProject rfl (build_row fallbackScores none posScoreProject) 5
    (by simp [axis_avg, build_row, fallbackScores, posScoreProject, score_summary_from_records])
    (by simp)

/-! Lemmas about the stable sort model. -/

theorem mem_orderedInsert {le : α → α → Bool} {a x : α} {l : List α} :
    x ∈ orderedInsert le a l ↔ x = a ∨ x ∈ l := by
  induction l with
  | nil => simp [orderedInsert]
  | cons b l ih =>
    unfold orderedInsert
    split
    · simp [List.mem_cons]
    · simp only [List.mem_cons, ih]
      tauto

theorem mem_insertionSort {le : α → α → Bool} {x : α} {l : List α} :
    x ∈ insertionSort le l ↔ x ∈ l := by
  induction l with
  | nil => simp [insertionSort]
  | cons a l ih =>
    unfold insertionSort
    rw [mem_orderedInsert]
    simp [ih]

theorem mem_pySort {le : α → α → Bool} {rev : Bool} {x : α} {l : List α} :
    x ∈ pySort le rev l ↔ x ∈ l := by
  unfold pySort
  split
  · rw [List.mem_reverse, mem_insertionSort, List.mem_reverse]
  · exact mem_insertionSort

theorem length_orderedInsert {le : α → α → Bool} (a : α) (l : List α) :
    (orderedInsert le a l).length = l.length + 1 := by
  induction l with
  | nil => rfl
  | cons b l ih =>
    unfold orderedInsert
    split
    · rfl
    · simp [ih]

theorem length_insertionSort {le : α → α → Bool} (l : List α) :
    (insertionSort le l).length = l.length := by
  induction l with
  | nil => rfl
  | cons a l ih =>
    unfold insertionSort
    rw [length_orderedInsert, ih]
    rfl

theorem length_pySort {le : α → α → Bool} (rev : Bool) (l : List α) :
    (pySort le rev l).length = l.length := by
  unfold pySort
  split
  · rw [List.length_reverse, length_insertionSort, List.length_reverse]
  · exact length_insertionSort l

/-- C8: with a nonempty requested slug carried by no configuration visible
to the viewer's audience, the view signals `Http404` and returns no partial
result (the error carries no context at all). -/

theorem slug_not_found (role : String) (list_slug : String)
    (all_lists : List ProjectList) (projects : List Project)
    (entriesOf : String → List ProjectListEntry)
    (score_records : Nat → List ScoreRecord)
    (hrole : allowed_roles.contains role = true)
    (hslug : list_slug ≠ "")
    (hmiss : ∀ l ∈ all_lists,
      (audience_filters role).contains l.audience = true → l.slug ≠ list_slug) :
    project_list role list_slug all_lists projects entriesOf score_records =
      Except.error ViewError.http404 := by
  have hfind : (available_lists_for role all_lists).find?
      (fun l => l.slug == list_slug) = none := by
    apply List.find?_eq_none.mpr
    intro l hl
    have hl2 : l ∈ all_lists.filter
        (fun l => (audience_filters role).contains l.audience) := by
      have := mem_insertionSort.mp hl
      exact this
    rw [List.mem_filter] at hl2
    simpa using hmiss l hl2.1 hl2.2
  have hsel : select_list (available_lists_for role all_lists) list_slug role =
      Except.error ViewError.http404 := by
    unfold select_list
    rw [if_pos hslug, hfind]
  have hmem : role ∈ allowed_roles := by simpa using hrole
  simp [project_list, hmem, hsel]

/-- Witness for C8: a judge requesting slug `missing-slug` against a catalog
holding only `other-slug` receives `Http404`. -/

theorem slug_not_found_witness :
    project_list "judge" "missing-slug" [otherSlugList] [] (fun _ => []) (fun _ => []) =
      Except.error ViewError.http404 :=
  slug_not_found "judge" "missing-slug" [otherSlugList] [] (fun _ => []) (fun _ => [])
    (by decide) (by decide) (by decide)

/-- C10: the result cap applies only to a truthy limit: with `limit` null or
zero the output is the full untruncated ordered sequence, and the displayed
count is the full included count. -/

theorem zero_limit_untruncated (show_scores : Bool) (selected : Option ProjectList)
    (projects : List Project) (entriesOf : String → List ProjectListEntry)
    (score_records : Nat → List ScoreRecord)
    (h : limitOf selected = none ∨ limitOf selected = some 0) :
    (compute_listing show_scores selected projects entriesOf score_records).project_rows =
      assign_ranks 1 (ordered_rows show_scores selected projects entriesOf score_records) ∧
    (compute_listing show_scores selected projects entriesOf score_records).display_count =
      (ordered_rows show_scores selected projects entriesOf score_records).length := by
  have hfalse : pyTruthyNat (limitOf selected) = false := by
    rcases h with h | h <;> simp [h, pyTruthyNat]
  simp [compute_listing, hfalse]

/-- Witness for C10: with the stored limit 0, the ranked output is the whole
ordered sequence (no truncation to the empty list). -/

theorem zero_limit_untruncated_witness :
    (compute_listing true (some zeroLimitList) [titledProject] (fun _ => [])
        (fun _ => [])).project_rows =
      assign_ranks 1 (ordered_rows true (some zeroLimitList) [titledProject]
        (fun _ => []) (fun _ => [])) ∧
    (compute_listing true (some zeroLimitList) [titledProject] (fun _ => [])
        (fun _ => [])).display_count =
      (ordered_rows true (some zeroLimitList) [titledProject] (fun _ => [])
        (fun _ => [])).length :=
  zero_limit_untruncated true (some zeroLimitList) [titledProject] (fun _ => [])
    (fun _ => []) (Or.inr rfl)

/-! Structural lemmas connecting the output rows to the included rows. -/

theorem assign_ranks_mem {i : Nat} {l : List Row} {r : RankedRow}
    (h : r ∈ assign_ranks i l) : r.row ∈ l := by
  induction l generalizing i with
  | nil => simp [assign_ranks] at h
  | cons x xs ih =>
    unfold assign_ranks at h
    rcases List.mem_cons.mp h with h | h
    · subst h
      exact List.mem_cons_self _ _
    · exact List.mem_cons_of_mem _ (ih h)

theorem mem_ordered_rows {show_scores : Bool} {selected : Option ProjectList}
    {projects : List Project} {entriesOf : String → List ProjectListEntry}
    {score_records : Nat → List ScoreRecord} {row : Row}
    (h : row ∈ ordered_rows show_scores selected projects entriesOf score_records) :
    row ∈ included_rows selected projects entriesOf score_records := by
  unfold ordered_rows at h
  rcases List.mem_append.mp h with h | h
  · exact List.mem_of_mem_filter (mem_insertionSort.mp h)
  · exact List.mem_of_mem_filter (mem_pySort.mp h)

theorem compute_listing_project_rows (show_scores : Bool) (selected : Option ProjectList)
    (projects : List Project) (entriesOf : String → List ProjectListEntry)
    (score_records : Nat → List ScoreRecord) :
    (compute_listing show_scores selected projects entriesOf score_records).project_rows =
      assign_ranks 1
        (if pyTruthyNat (limitOf selected) = true then
          (ordered_rows show_scores selected projects entriesOf score_records).take
            ((limitOf selected).getD 0)
        else ordered_rows show_scores selected projects entriesOf score_records) := rfl

theorem output_row_included {show_scores : Bool} {selected : Option ProjectList}
    {projects : List Project} {entriesOf : String → List ProjectListEntry}
    {score_records : Nat → List ScoreRecord} {r : RankedRow}
    (h : r ∈ (compute_listing show_scores selected projects entriesOf
      score_records).project_rows) :
    r.row ∈ included_rows selected projects entriesOf score_records := by
  rw [compute_listing_project_rows] at h
  have h2 := assign_ranks_mem h
  split at h2
  · exact mem_ordered_rows (List.take_subset _ _ h2)
  · exact mem_ordered_rows h2

theorem mem_included_rows {selected : Option ProjectList} {projects : List Project}
    {entriesOf : String → List ProjectListEntry}
    {score_records : Nat → List ScoreRecord} {row : Row}
    (h : row ∈ included_rows selected projects entriesOf score_records) :
    ∃ p ∈ projects,
      row = build_row score_records
        (entriesMapLookup (entries_for selected entriesOf) p.id) p ∧
      include_project selected.isSome (filterConfigOf selected)
        (whitelistOnlyOf (filterConfigOf selected))
        (entriesMapLookup (entries_for selected entriesOf) p.id) p = true := by
  unfold included_rows at h
  rw [List.mem_filterMap] at h
  obtain ⟨p, hp, hif⟩ := h
  refine ⟨p, hp, ?_⟩
  dsimp only at hif
  split at hif
  · rename_i hinc
    injection hif with hif
    exact ⟨hif.symm, hinc⟩
  · exact absurd hif (by simp)

/-- C1: a project whose entry for the selected configuration is blacklisted
never appears among the output rows, whatever the structural filter result,
the whitelist flag and the whitelist-only mode. -/

theorem blacklist_always_excluded (show_scores : Bool) (selected : Option ProjectList)
    (projects : List Project) (entriesOf : String → List ProjectListEntry)
    (score_records : Nat → List ScoreRecord) (pid : Nat) (e : ProjectListEntry)
    (he : entriesMapLookup (entries_for selected entriesOf) pid = some e)
    (hb : e.is_blacklisted = true) :
    ∀ r ∈ (compute_listing show_scores selected projects entriesOf
      score_records).project_rows, r.row.project.id ≠ pid := by
  intro r hr hpid
  obtain ⟨p, hp, heq, hinc⟩ := mem_included_rows (output_row_included hr)
  have hpid2 : p.id = pid := by
    rw [heq] at hpid
    simpa [build_row] using hpid
  rw [hpid2, he] at hinc
  unfold include_project at hinc
  simp [entryBlacklisted, hb] at hinc

/-- Witness for C1: with project 1 blacklisted, no output row carries
project id 1. -/

theorem blacklist_always_excluded_witness :
    ((compute_listing true (some blacklistList) [titledProject] blacklistEntries
      (fun _ => [])).project_rows.all (fun r => r.row.project.id != 1)) = true :=
  List.all_eq_true.mpr (fun r hr => by
    simpa using blacklist_always_excluded true (some blacklistList) [titledProject]
      blacklistEntries (fun _ => []) 1 ⟨1, true, true, some 1⟩ (by decide) rfl r hr)

theorem assign_ranks_length (i : Nat) (l : List Row) :
    (assign_ranks i l).length = l.length := by
  induction l generalizing i with
  | nil => rfl
  | cons x xs ih =>
    unfold assign_ranks
    simp [ih]

theorem assign_ranks_map_rank (i : Nat) (l : List Row) :
    (assign_ranks i l).map (fun r => r.rank) = List.range' i l.length := by
  induction l generalizing i with
  | nil => rfl
  | cons x xs ih =>
    unfold assign_ranks
    rw [List.map_cons, ih]
    rfl

theorem filter_length_split (p : α → Bool) (l : List α) :
    (l.filter p).length + (l.filter (fun x => !p x)).length = l.length := by
  induction l with
  | nil => rfl
  | cons x xs ih =>
    by_cases hx : p x = true
    · simp [List.filter, hx, ← ih]
      omega
    · simp only [List.filter, hx, Bool.not_eq_true] at *
      simp [hx, ← ih]
      omega

theorem ordered_rows_length (show_scores : Bool) (selected : Option ProjectList)
    (projects : List Project) (entriesOf : String → List ProjectListEntry)
    (score_records : Nat → List ScoreRecord) :
    (ordered_rows show_scores selected projects entriesOf score_records).length =
      (included_rows selected projects entriesOf score_records).length := by
  unfold ordered_rows
  rw [List.length_append, length_insertionSort, length_pySort]
  exact filter_length_split _ _

/-- C6: the rank fields of the output are exactly 1, 2, ..., N in order,
where N is the included count capped by a truthy limit (the spec reads
`limit or infinity`, so a null or zero limit leaves N the included count). -/

theorem ranks_are_one_to_n (show_scores : Bool) (selected : Option ProjectList)
    (projects : List Project) (entriesOf : String → List ProjectListEntry)
    (score_records : Nat → List ScoreRecord) :
    (compute_listing show_scores selected projects entriesOf
        score_records).project_rows.map (fun r => r.rank) =
      List.range' 1 (compute_listing show_scores selected projects entriesOf
        score_records).project_rows.length ∧
    (compute_listing show_scores selected projects entriesOf
        score_records).project_rows.length =
      min (included_rows selected projects entriesOf score_records).length
        (if pyTruthyNat (limitOf selected) = true then (limitOf selected).getD 0
         else (included_rows selected projects entriesOf score_records).length) := by
  rw [compute_listing_project_rows]
  constructor
  · rw [assign_ranks_map_rank, assign_ranks_length]
  · rw [assign_ranks_length]
    split
    · rw [List.length_take, ordered_rows_length, Nat.min_comm]
    · rw [ordered_rows_length, Nat.min_self]

/-- Witness for C6: with two included projects and limit 1, the output ranks
are exactly `range' 1 N` with `N = min 2 1`. -/

theorem ranks_are_one_to_n_witness :
    (compute_listing true (some limitOneList) [titledProject, secondProject]
        (fun _ => []) (fun _ => [])).project_rows.map (fun r => r.rank) =
      List.range' 1 (compute_listing true (some limitOneList)
        [titledProject, secondProject] (fun _ => []) (fun _ => [])).project_rows.length ∧
    (compute_listing true (some limitOneList) [titledProject, secondProject]
        (fun _ => []) (fun _ => [])).project_rows.length =
      min (included_rows (some limitOneList) [titledProject, secondProject]
          (fun _ => []) (fun _ => [])).length
        (if pyTruthyNat (limitOf (some limitOneList)) = true
         then (limitOf (some limitOneList)).getD 0
         else (included_rows (some limitOneList) [titledProject, secondProject]
           (fun _ => []) (fun _ => [])).length) :=
  ranks_are_one_to_n true (some limitOneList) [titledProject, secondProject]
    (fun _ => []) (fun _ => [])

/-! Sortedness and stability of the insertion sort model. -/

theorem pairwise_orderedInsert {le : α → α → Bool}
    (htot : ∀ a b, le a b = false → le b a = true)
    (htrans : ∀ a b c, le a b = true → le b c = true → le a c = true)
    (a : α) {l : List α} (hl : l.Pairwise (fun x y => le x y = true)) :
    (orderedInsert le a l).Pairwise (fun x y => le x y = true) := by
  induction l with
  | nil => simp [orderedInsert]
  | cons b l ih =>
    rw [List.pairwise_cons] at hl
    obtain ⟨hb, hl⟩ := hl
    unfold orderedInsert
    split
    · rename_i hab
      rw [List.pairwise_cons]
      refine ⟨?_, ?_⟩
      · intro y hy
        rcases List.mem_cons.mp hy with rfl | hy
        · exact hab
        · exact htrans a b y hab (hb y hy)
      · rw [List.pairwise_cons]
        exact ⟨hb, hl⟩
    · rename_i hab
      rw [List.pairwise_cons]
      refine ⟨?_, ih hl⟩
      intro y hy
      rcases mem_orderedInsert.mp hy with hya | hy
      · rw [hya]
        exact htot a b (by simpa using hab)
      · exact hb y hy

theorem pairwise_insertionSort {le : α → α → Bool}
    (htot : ∀ a b, le a b = false → le b a = true)
    (htrans : ∀ a b c, le a b = true → le b c = true → le a c = true)
    (l : List α) :
    (insertionSort le l).Pairwise (fun x y => le x y = true) := by
  induction l with
  | nil => simp [insertionSort]
  | cons a l ih => exact pairwise_orderedInsert htot htrans a ih

theorem filter_orderedInsert_pos {le : α → α → Bool} {p : α → Bool} {a : α}
    (hpa : p a = true) (hstep : ∀ b, le a b = false → p b = false) (l : List α) :
    (orderedInsert le a l).filter p = a :: l.filter p := by
  induction l with
  | nil => simp [orderedInsert, hpa]
  | cons b l ih =>
    unfold orderedInsert
    split
    · simp [List.filter_cons, hpa]
    · rename_i hab
      have hpb : p b = false := hstep b (by simpa using hab)
      simp [List.filter_cons, hpb, ih]

theorem filter_orderedInsert_neg {le : α → α → Bool} {p : α → Bool} {a : α}
    (hpa : p a = false) (l : List α) :
    (orderedInsert le a l).filter p = l.filter p := by
  induction l with
  | nil => simp [orderedInsert, hpa]
  | cons b l ih =>
    unfold orderedInsert
    split
    · simp [List.filter_cons, hpa]
    · simp [List.filter_cons, ih]

theorem filter_insertionSort {le : α → α → Bool} {p : α → Bool}
    (hstep : ∀ a b, p a = true → le a b = false → p b = false) (l : List α) :
    (insertionSort le l).filter p = l.filter p := by
  induction l with
  | nil => rfl
  | cons a l ih =>
    unfold insertionSort
    by_cases hpa : p a = true
    · rw [filter_orderedInsert_pos hpa (fun b => hstep a b hpa), ih,
        List.filter_cons, if_pos hpa]
    · have hpa2 : p a = false := by simpa using hpa
      rw [filter_orderedInsert_neg hpa2, ih, List.filter_cons, if_neg (by simp [hpa2])]

theorem pairwise_of_mem {R : α → α → Prop} {l : List α}
    (h : ∀ a ∈ l, ∀ b ∈ l, R a b) : l.Pairwise R := by
  induction l with
  | nil => constructor
  | cons x xs ih =>
    rw [List.pairwise_cons]
    exact ⟨fun y hy => h x (List.mem_cons_self x xs) y (List.mem_cons_of_mem x hy),
      ih (fun a ha b hb => h a (List.mem_cons_of_mem x ha) b (List.mem_cons_of_mem x hb))⟩

theorem assign_ranks_map_row (i : Nat) (l : List Row) :
    (assign_ranks i l).map (fun r => r.row) = l := by
  induction l generalizing i with
  | nil => rfl
  | cons x xs ih =>
    unfold assign_ranks
    simp [ih]

theorem assign_ranks_pairwise {R : Row → Row → Prop} {l : List Row} (i : Nat)
    (h : l.Pairwise R) :
    (assign_ranks i l).Pairwise (fun x y => R x.row y.row) := by
  induction l generalizing i with
  | nil => exact List.Pairwise.nil
  | cons x xs ih =>
    rw [List.pairwise_cons] at h
    obtain ⟨hx, hxs⟩ := h
    unfold assign_ranks
    rw [List.pairwise_cons]
    exact ⟨fun y hy => hx y.row (assign_ranks_mem hy), ih _ hxs⟩

/-- C5: in the final output every manually ranked row precedes every row
without a manual rank, regardless of the sort direction; among themselves
the manual rows are ordered by ascending `manual_rank`; and rows of equal
manual rank keep catalog iteration order (for every rank value, the output
rows carrying it form a sublist of the included rows in catalog order). -/

theorem manual_rows_precede_auto (show_scores : Bool) (selected : Option ProjectList)
    (projects : List Project) (entriesOf : String → List ProjectListEntry)
    (score_records : Nat → List ScoreRecord) :
    (compute_listing show_scores selected projects entriesOf
        score_records).project_rows.Pairwise (fun r1 r2 =>
      (entryHasManualRank r2.row.entry = true → entryHasManualRank r1.row.entry = true) ∧
      (entryHasManualRank r1.row.entry = true → entryHasManualRank r2.row.entry = true →
        manualRankKey r1.row ≤ manualRankKey r2.row)) ∧
    ∀ v : Nat,
      List.Sublist
        (((compute_listing show_scores selected projects entriesOf
            score_records).project_rows.map (fun r => r.row)).filter
          (fun row => entryHasManualRank row.entry && (manualRankKey row == v)))
        ((included_rows selected projects entriesOf score_records).filter
          (fun row => entryHasManualRank row.entry && (manualRankKey row == v))) := by
  have htot : ∀ a b : Row, (decide (manualRankKey a ≤ manualRankKey b)) = false →
      (decide (manualRankKey b ≤ manualRankKey a)) = true := by
    intro a b h
    simp at *
    omega
  have htrans : ∀ a b c : Row, decide (manualRankKey a ≤ manualRankKey b) = true →
      decide (manualRankKey b ≤ manualRankKey c) = true →
      decide (manualRankKey a ≤ manualRankKey c) = true := by
    intro a b c h1 h2
    simp at *
    omega
  constructor
  · rw [compute_listing_project_rows]
    refine @assign_ranks_pairwise (fun row1 row2 =>
      (entryHasManualRank row2.entry = true → entryHasManualRank row1.entry = true) ∧
      (entryHasManualRank row1.entry = true → entryHasManualRank row2.entry = true →
        manualRankKey row1 ≤ manualRankKey row2)) _ 1 ?_
    have hp : (ordered_rows show_scores selected projects entriesOf
        score_records).Pairwise (fun row1 row2 =>
      (entryHasManualRank row2.entry = true → entryHasManualRank row1.entry = true) ∧
      (entryHasManualRank row1.entry = true → entryHasManualRank row2.entry = true →
        manualRankKey row1 ≤ manualRankKey row2)) := by
      unfold ordered_rows
      apply List.pairwise_append.mpr
      refine ⟨?_, ?_, ?_⟩
      · have hsorted := pairwise_insertionSort htot htrans
          ((included_rows selected projects entriesOf score_records).filter
            (fun row => entryHasManualRank row.entry))
        refine hsorted.imp_of_mem ?_
        intro a b ha hb hle
        have hma : entryHasManualRank a.entry = true :=
          (List.mem_filter.mp (mem_insertionSort.mp ha)).2
        exact ⟨fun _ => hma, fun _ _ => by simpa using hle⟩
      · apply pairwise_of_mem
        intro a ha b hb
        have hmb : entryHasManualRank b.entry = false := by
          simpa using (List.mem_filter.mp (mem_pySort.mp hb)).2
        exact ⟨fun h => absurd h (by simp [hmb]), fun _ h => absurd h (by simp [hmb])⟩
      · intro a ha b hb
        have hmb : entryHasManualRank b.entry = false := by
          simpa using (List.mem_filter.mp (mem_pySort.mp hb)).2
        exact ⟨fun h => absurd h (by simp [hmb]), fun _ h => absurd h (by simp [hmb])⟩
    split
    · exact hp.sublist (List.take_sublist _ _)
    · exact hp
  · intro v
    rw [compute_listing_project_rows, assign_ranks_map_row]
    have hstep : ∀ a b : Row,
        (entryHasManualRank a.entry && (manualRankKey a == v)) = true →
        (decide (manualRankKey a ≤ manualRankKey b)) = false →
        (entryHasManualRank b.entry && (manualRankKey b == v)) = false := by
      intro a b hpa hle
      simp only [Bool.and_eq_true, beq_iff_eq] at hpa
      obtain ⟨hma, hkv⟩ := hpa
      simp only [decide_eq_false_iff_not, not_le] at hle
      have hne : manualRankKey b ≠ v := by omega
      simp [hne]
    have hMA : (ordered_rows show_scores selected projects entriesOf
        score_records).filter
          (fun row => entryHasManualRank row.entry && (manualRankKey row == v)) =
        (included_rows selected projects entriesOf score_records).filter
          (fun row => entryHasManualRank row.entry && (manualRankKey row == v)) := by
      unfold ordered_rows
      rw [List.filter_append]
      have hAuto : (pySort (fun a b => SKey.le
            (sort_key (effective_sort_field show_scores selected) a)
            (sort_key (effective_sort_field show_scores selected) b))
          (sortDescOf selected)
          ((included_rows selected projects entriesOf score_records).filter
            (fun row => !entryHasManualRank row.entry))).filter
          (fun row => entryHasManualRank row.entry && (manualRankKey row == v)) = [] := by
        rw [List.filter_eq_nil_iff]
        intro a ha
        have hma : entryHasManualRank a.entry = false := by
          simpa using (List.mem_filter.mp (mem_pySort.mp ha)).2
        simp [hma]
      rw [hAuto, List.append_nil, filter_insertionSort hstep, List.filter_filter]
      congr 1
      funext a
      cases hm : entryHasManualRank a.entry <;> simp [hm]
    split
    · rw [← hMA]
      exact (List.take_sublist _ _).filter _
    · rw [hMA]

theorem build_row_with_summary (s1 s2 : Nat → List ScoreRecord)
    (e : Option ProjectListEntry) (p : Project) :
    build_row s2 e p = with_summary s2 (build_row s1 e p) := rfl

theorem filterMap_if_map {f1 f2 : α → Option β} {g : β → β}
    (h : ∀ a, f2 a = (f1 a).map g) (l : List α) :
    l.filterMap f2 = (l.filterMap f1).map g := by
  induction l with
  | nil => rfl
  | cons a l ih =>
    rw [List.filterMap_cons, List.filterMap_cons, h a]
    cases f1 a with
    | none => simpa using ih
    | some b => simp [ih]

theorem included_rows_scores (selected : Option ProjectList) (projects : List Project)
    (entriesOf : String → List ProjectListEntry) (s1 s2 : Nat → List ScoreRecord) :
    included_rows selected projects entriesOf s2 =
      (included_rows selected projects entriesOf s1).map (with_summary s2) := by
  unfold included_rows
  apply filterMap_if_map
  intro p
  dsimp only
  by_cases hc : include_project selected.isSome (filterConfigOf selected)
      (whitelistOnlyOf (filterConfigOf selected))
      (entriesMapLookup (entries_for selected entriesOf) p.id) p = true
  · rw [if_pos hc, if_pos hc]
    rfl
  · rw [if_neg hc, if_neg hc]
    rfl

theorem orderedInsert_map {g : α → α} {le : α → α → Bool}
    (hcong : ∀ a b, le (g a) (g b) = le a b) (a : α) (l : List α) :
    orderedInsert le (g a) (l.map g) = (orderedInsert le a l).map g := by
  induction l with
  | nil => rfl
  | cons b l ih =>
    simp only [List.map_cons, orderedInsert, hcong a b]
    split
    · rfl
    · rw [List.map_cons, ih]

theorem insertionSort_map {g : α → α} {le : α → α → Bool}
    (hcong : ∀ a b, le (g a) (g b) = le a b) (l : List α) :
    insertionSort le (l.map g) = (insertionSort le l).map g := by
  induction l with
  | nil => rfl
  | cons a l ih =>
    simp only [List.map_cons, insertionSort]
    rw [ih, orderedInsert_map hcong]

theorem pySort_map {g : α → α} {le : α → α → Bool}
    (hcong : ∀ a b, le (g a) (g b) = le a b) (rev : Bool) (l : List α) :
    pySort le rev (l.map g) = (pySort le rev l).map g := by
  unfold pySort
  split
  · rw [← List.map_reverse, insertionSort_map hcong, List.map_reverse]
  · exact insertionSort_map hcong l

theorem filter_map_pred {g : α → α} {p : α → Bool} (hp : ∀ r, p (g r) = p r)
    (l : List α) :
    (l.map g).filter p = (l.filter p).map g := by
  induction l with
  | nil => rfl
  | cons a l ih =>
    simp only [List.map_cons, List.filter_cons, hp a]
    split
    · rw [List.map_cons, ih]
    · exact ih

theorem assign_ranks_map_pair {g : Row → Row}
    (hg : ∀ r, (g r).project.id = r.project.id) (i : Nat) (l : List Row) :
    (assign_ranks i (l.map g)).map (fun rr => (rr.row.project.id, rr.rank)) =
      (assign_ranks i l).map (fun rr => (rr.row.project.id, rr.rank)) := by
  induction l generalizing i with
  | nil => rfl
  | cons x xs ih =>
    simp only [List.map_cons, assign_ranks, hg x]
    rw [ih]

/-- C2: for a viewer whose effective role may not see scores, a configuration
requesting a score-based sort field ranks exactly as if the sort field were
alphabetical, and consequently two runs differing only in the score records
produce the same sequence of (project id, rank) pairs: score ordering never
leaks to such a viewer through row order. -/

theorem score_sort_downgraded_for_hidden_scores (role : String) (l : ProjectList)
    (projects : List Project) (entriesOf : String → List ProjectListEntry)
    (scores1 scores2 : Nat → List ScoreRecord)
    (hrole : show_scores_for role = false)
    (hsf : l.sort_field = "score_raw" ∨ l.sort_field = "score_scaled") :
    (compute_listing (show_scores_for role) (some l) projects entriesOf
        scores1).project_rows =
      (compute_listing (show_scores_for role)
        (some ⟨l.title, l.slug, l.audience, "alphabetical", l.sort_descending,
          l.limit, l.filter_config, l.is_default⟩) projects entriesOf
        scores1).project_rows ∧
    (compute_listing (show_scores_for role) (some l) projects entriesOf
        scores1).project_rows.map (fun r => (r.row.project.id, r.rank)) =
      (compute_listing (show_scores_for role) (some l) projects entriesOf
        scores2).project_rows.map (fun r => (r.row.project.id, r.rank)) := by
  have hEff : effective_sort_field (show_scores_for role) (some l) = "alphabetical" := by
    rcases hsf with h | h <;> simp [effective_sort_field, hrole, h]
  have hEff2 : effective_sort_field (show_scores_for role)
      (some ⟨l.title, l.slug, l.audience, "alphabetical", l.sort_descending,
        l.limit, l.filter_config, l.is_default⟩) = "alphabetical" := by
    simp [effective_sort_field]
  constructor
  · have hord : ordered_rows (show_scores_for role) (some l) projects entriesOf scores1 =
        ordered_rows (show_scores_for role)
          (some ⟨l.title, l.slug, l.audience, "alphabetical", l.sort_descending,
            l.limit, l.filter_config, l.is_default⟩) projects entriesOf scores1 := by
      unfold ordered_rows
      simp only [hEff, hEff2]
      rfl
    rw [compute_listing_project_rows, compute_listing_project_rows, hord]
    rfl
  · rw [compute_listing_project_rows, compute_listing_project_rows]
    have hinc := included_rows_scores (some l) projects entriesOf scores1 scores2
    have hord : ordered_rows (show_scores_for role) (some l) projects entriesOf scores2 =
        (ordered_rows (show_scores_for role) (some l) projects entriesOf scores1).map
          (with_summary scores2) := by
      unfold ordered_rows
      simp only [hEff]
      rw [hinc]
      rw [@filter_map_pred Row (with_summary scores2)
          (fun row => entryHasManualRank row.entry) (fun r => rfl),
        @filter_map_pred Row (with_summary scores2)
          (fun row => !entryHasManualRank row.entry) (fun r => rfl),
        @insertionSort_map Row (with_summary scores2)
          (fun a b => decide (manualRankKey a ≤ manualRankKey b)) (fun a b => rfl),
        @pySort_map Row (with_summary scores2)
          (fun a b => SKey.le (sort_key "alphabetical" a) (sort_key "alphabetical" b))
          (fun a b => rfl),
        List.map_append]
    rw [hord]
    split
    · rw [← List.map_take]
      exact (@assign_ranks_map_pair (with_summary scores2) (fun r => rfl) 1 _).symm
    · exact (@assign_ranks_map_pair (with_summary scores2) (fun r => rfl) 1 _).symm

/-- Witness for C2: for the hacktj role (no score visibility) and a raw
score sort, the run ranks as the alphabetical variant does, and swapping in
a score catalog that favors the second project does not change the
(project id, rank) sequence. -/

theorem score_sort_downgraded_for_hidden_scores_witness :
    (compute_listing (show_scores_for "hacktj") (some scoreSortList)
        [titledProject, secondProject] (fun _ => []) (fun _ => [])).project_rows =
      (compute_listing (show_scores_for "hacktj")
        (some ⟨scoreSortList.title, scoreSortList.slug, scoreSortList.audience,
          "alphabetical", scoreSortList.sort_descending, scoreSortList.limit,
          scoreSortList.filter_config, scoreSortList.is_default⟩)
        [titledProject, secondProject] (fun _ => []) (fun _ => [])).project_rows ∧
    (compute_listing (show_scores_for "hacktj") (some scoreSortList)
        [titledProject, secondProject] (fun _ => [])
        (fun _ => [])).project_rows.map (fun r => (r.row.project.id, r.rank)) =
      (compute_listing (show_scores_for "hacktj") (some scoreSortList)
        [titledProject, secondProject] (fun _ => [])
        (fun pid => if pid == 2 then [⟨some 9, some 9⟩] else [])).project_rows.map
        (fun r => (r.row.project.id, r.rank)) :=
  score_sort_downgraded_for_hidden_scores "hacktj" scoreSortList
    [titledProject, secondProject] (fun _ => []) (fun _ => [])
    (fun pid => if pid == 2 then [⟨some 9, some 9⟩] else [])
    rfl (Or.inl rfl)

end Judging
